import Mathlib

/-!
Shallow embedding of the VPU custom-layer descriptor loader
(`custom_kernel.cpp`, `custom_cl_kernel.cpp`, `custom_kernel.hpp`) and
proofs about its parsing routines.

Strings are modelled by Lean `String`; the XML tree by a small inductive
mirroring the pugixml accesses the code performs; the filesystem and the
external ELF-metadata query object (`md_parser_t`) by explicit parameters.
C++ exceptions (`THROW_IE_EXCEPTION`, `VPU_THROW_UNLESS`, `std::stoi`
failures) are modelled with `Except KernelError`.
-/

/-- `VPU_DECLARE_ENUM(CustomParamType, ...)` from `custom_kernel.hpp`. -/
inductive CustomParamType where
  | Input
  | Output
  | Data
  | LocalData
  | InputBuffer
  | OutputBuffer
  | Int
  | Float
deriving DecidableEq, Repr

/-- `VPU_DECLARE_ENUM(CustomDataFormat, ...)` from `custom_kernel.hpp`.
The spec's layout names map to these tokens: ChannelsFirst3D = BFYX,
ChannelsLast3D = BYXF, ChannelsFirst2D = FYX, ChannelsLast2D = YXF. -/
inductive CustomDataFormat where
  | BYXF
  | BFYX
  | YXF
  | FYX
  | BF
  | Any
  | None
deriving DecidableEq, Repr

/-- `VPU_DECLARE_ENUM(CustomDimSource, Input, Output)`. -/
inductive CustomDimSource where
  | Input
  | Output
deriving DecidableEq, Repr

/-- Failure outcomes of descriptor construction.  The C++ throws
`InferenceEngine` exceptions; the spec groups them into error kinds
(`InvalidDescriptor`, `FileNotFound`, `MalformedBinary`, `BinaryMismatch`).
`stoiInvalidArgument` models `std::stoi` throwing `std::invalid_argument`;
`outOfBounds` models an out-of-bounds element access on a `SmallVector`;
`metadataError` models `IE_ASSERT` / `VPU_THROW_UNLESS` failures while
querying the external metadata parser. -/
inductive KernelError where
  | invalidDescriptor : String → KernelError
  | fileNotFound : String → KernelError
  | malformedBinary : String → KernelError
  | binaryMismatchEntry : String → KernelError
  | binaryMismatchCount : Nat → KernelError
  | stoiInvalidArgument : KernelError
  | outOfBounds : KernelError
  | metadataError : String → KernelError
deriving DecidableEq, Repr

instance {ε α : Type} [DecidableEq ε] [DecidableEq α] : DecidableEq (Except ε α) := fun x y =>
  match x, y with
  | .ok a, .ok b =>
      if h : a = b then isTrue (by rw [h]) else isFalse (fun he => by cases he; exact h rfl)
  | .error e, .error f =>
      if h : e = f then isTrue (by rw [h]) else isFalse (fun he => by cases he; exact h rfl)
  | .ok _, .error _ => isFalse (fun he => by cases he)
  | .error _, .ok _ => isFalse (fun he => by cases he)

/-- `ie::details::CaselessEq<std::string>`: equality after per-character
`tolower` (ASCII); the equal-length requirement is implied by list
equality. -/
def ciEq (a b : String) : Bool :=
  a.toList.map Char.toLower == b.toList.map Char.toLower

/-- Characters accepted by `isspace` in the default C locale,
skipped by `std::stoi` before the number. -/
def isSpaceChar (c : Char) : Bool :=
  c = ' ' || c = '\t' || c = '\n' || c = '\x0b' || c = '\x0c' || c = '\r'

/-- Numeric value of a run of decimal digits. -/
def digitsVal (ds : List Char) : Int :=
  ds.foldl (fun a c => a * 10 + ((c.toNat : Int) - 48)) 0

/-- `std::stoi` on the characters of a string: skip leading whitespace,
parse an optional sign and a non-empty run of decimal digits, ignore any
trailing characters; throw `std::invalid_argument` when no digits are
found.  (Overflow, which would throw `std::out_of_range`, is not modelled:
`Int` is unbounded.) -/
def stoi (s : List Char) : Except KernelError Int :=
  let s1 := s.dropWhile isSpaceChar
  match s1 with
  | '-' :: rest =>
      let ds := rest.takeWhile Char.isDigit
      if ds.isEmpty then .error .stoiInvalidArgument else .ok (-(digitsVal ds))
  | '+' :: rest =>
      let ds := rest.takeWhile Char.isDigit
      if ds.isEmpty then .error .stoiInvalidArgument else .ok (digitsVal ds)
  | other =>
      let ds := other.takeWhile Char.isDigit
      if ds.isEmpty then .error .stoiInvalidArgument else .ok (digitsVal ds)

/-- `CustomKernel::parseDimSource` (custom_kernel.cpp:12-35): split at the
first comma (`find_first_of`/`substr`); the left part must be "input" or
"output" case-insensitively, else `THROW_IE_EXCEPTION`; the index is `-1`
when there is no comma, else `std::stoi` of the part after the comma. -/
def parseDimSource (dims : String) : Except KernelError (CustomDimSource × Int) := do
  let cs := dims.toList
  let source := String.mk (cs.takeWhile (fun c => c ≠ ','))
  let dimSource ←
    if ciEq source "input" then Except.ok CustomDimSource.Input
    else if ciEq source "output" then Except.ok CustomDimSource.Output
    else Except.error (.invalidDescriptor ("Invalid dim source argument" ++ source))
  let idx ←
    match cs.dropWhile (fun c => c ≠ ',') with
    | [] => Except.ok (-1 : Int)
    | _ :: rest => stoi rest
  Except.ok (dimSource, idx)

/-- `CustomKernel::formatFromString` (custom_kernel.cpp:37-53):
case-insensitive lookup in the fixed six-entry `caseless_map`;
anything else throws. -/
def formatFromString (str : String) : Except KernelError CustomDataFormat :=
  if ciEq str "BFYX" then .ok .BFYX
  else if ciEq str "BYXF" then .ok .BYXF
  else if ciEq str "FYX" then .ok .FYX
  else if ciEq str "YXF" then .ok .YXF
  else if ciEq str "BF" then .ok .BF
  else if ciEq str "ANY" then .ok .Any
  else .error (.invalidDescriptor ("Tensor node has an invalid format " ++ str))

/-- One `std::getline(stream, buf, ',')` loop step (custom_kernel.cpp:61-63),
accumulating the current element in reverse.  `getline` succeeds iff at
least one character (the delimiter included) is extracted, so after a
trailing comma the next call fails and no empty element is produced. -/
def getlineGo (cur : List Char) : List Char → List (List Char)
  | [] => [cur.reverse]
  | c :: rest =>
      if c = ',' then
        cur.reverse :: (match rest with
          | [] => []
          | _ :: _ => getlineGo [] rest)
      else getlineGo (c :: cur) rest

/-- The whole `while (std::getline(...))` loop: on an empty string the
first `getline` already fails and no element is produced. -/
def getlineSplit (cs : List Char) : List (List Char) :=
  match cs with
  | [] => []
  | _ :: _ => getlineGo [] cs

/-- `CustomKernel::parseSizeRule` (custom_kernel.cpp:55-66). -/
def parseSizeRule (size : String) : List String :=
  (getlineSplit size.toList).map String.mk

/-- Modelled from the spec: the split the spec describes for
`parseSizeRule` — split on commas keeping every element, a trailing or
empty element included.  Step function, accumulating in reverse. -/
def splitSpecGo (cur : List Char) : List Char → List (List Char)
  | [] => [cur.reverse]
  | c :: rest =>
      if c = ',' then cur.reverse :: splitSpecGo [] rest
      else splitSpecGo (c :: cur) rest

/-- Modelled from the spec: comma split preserving trailing and empty
elements (`"a,"` yields `["a",""]`, `""` yields `[""]`). -/
def splitSpec (size : String) : List String :=
  (splitSpecGo [] size.toList).map String.mk

/-- A pugixml element as accessed by the loader: a tag name, its
attributes in document order, its child elements in document order. -/
inductive XmlNode where
  | mk : String → List (String × String) → List XmlNode → XmlNode

def XmlNode.tag : XmlNode → String
  | .mk t _ _ => t

def XmlNode.attrs : XmlNode → List (String × String)
  | .mk _ a _ => a

def XmlNode.children : XmlNode → List XmlNode
  | .mk _ _ c => c

/-- All children with a given element name, in document order: the chain
`node.child(name)` / `next_sibling(name)` enumerates exactly these. -/
def XmlNode.childrenNamed (n : XmlNode) (name : String) : List XmlNode :=
  n.children.filter (fun c => c.tag == name)

/-- `node.child(name)`: the first child with that element name
(`none` models pugixml's empty node). -/
def XmlNode.child (n : XmlNode) (name : String) : Option XmlNode :=
  (n.childrenNamed name).head?

/-- `XMLParseUtils::GetStrAttr(node, name, def)`: the attribute's value,
or the default when the attribute is absent. -/
def getStrAttrD (n : XmlNode) (name dflt : String) : String :=
  (n.attrs.lookup name).getD dflt

/-- `XMLParseUtils::GetStrAttr(node, name)`: the attribute's value;
throws when the attribute is absent. -/
def getStrAttr (n : XmlNode) (name : String) : Except KernelError String :=
  match n.attrs.lookup name with
  | some v => .ok v
  | none => .error (.invalidDescriptor ("node does not contain attribute " ++ name))

/-- `XMLParseUtils::GetIntAttr(node, name)`: required integer attribute. -/
def getIntAttr (n : XmlNode) (name : String) : Except KernelError Int := do
  let s ← getStrAttr n name
  stoi s.toList

/-- `XMLParseUtils::GetIntAttr(node, name, def)`: integer attribute with a
default used when the attribute is absent. -/
def getIntAttrD (n : XmlNode) (name : String) (dflt : Int) : Except KernelError Int :=
  match n.attrs.lookup name with
  | some v => stoi v.toList
  | none => .ok dflt

/-- `CustomKernel::loadKernelBinary` (custom_kernel.cpp:68-84).  The
filesystem is modelled by `fs : String → Option String` (path to file
contents).  The loop body unconditionally returns or throws on the first
`Source` child, so later `Source` children are never consulted; with no
`Source` child the loop falls through to `THROW_IE_EXCEPTION`. -/
def loadKernelBinary (node : XmlNode) (configDir : String)
    (fs : String → Option String) : Except KernelError String :=
  match (node.childrenNamed "Source").head? with
  | none => .error (.invalidDescriptor "Kernel binary not found")
  | some source =>
      let fileName := configDir ++ "/" ++ getStrAttrD source "filename" ""
      match fs fileName with
      | none => .error (.fileNotFound fileName)
      | some content => .ok content

/-- `CustomKernel::KernelParam` (custom_kernel.hpp:51-60).  In the C++
struct `dimSource` has no initializer; `CustomDimSource.Input` is used
here as the placeholder default (no proof relies on the default of this
field, only on `dimIdx`, whose C++ default is `-1`). -/
structure KernelParam where
  type : CustomParamType := .Input
  format : CustomDataFormat := .Any
  argName : String := ""
  portIndex : Int := -1
  irSource : String := ""
  bufferSizeRule : String := ""
  dimSource : CustomDimSource := .Input
  dimIdx : Int := -1
deriving DecidableEq, Repr

/-- The `for` loops of `processParametersNode` push one parameter per
element and abort the whole construction on the first exception. -/
def mapE (f : XmlNode → Except KernelError KernelParam) :
    List XmlNode → Except KernelError (List KernelParam)
  | [] => .ok []
  | a :: as =>
      match f a with
      | .error e => .error e
      | .ok b =>
          match mapE f as with
          | .error e => .error e
          | .ok bs => .ok (b :: bs)

/-- Body of the `Tensor` loop of `CustomKernel::processParametersNode`
(custom_kernel.cpp:90-121): parse `type`; for the buffer kinds take the
first component of `parseSizeRule(size)` (an out-of-bounds `operator[]`
when the split is empty) and parse `dim`; then `format` (default "BFYX"),
`arg-name`, `port-index`. -/
def parseTensorType (typeStr : String) : Except KernelError CustomParamType :=
  if ciEq typeStr "input" then .ok .Input
  else if ciEq typeStr "output" then .ok .Output
  else if ciEq typeStr "input_buffer" then .ok .InputBuffer
  else if ciEq typeStr "output_buffer" then .ok .OutputBuffer
  else if ciEq typeStr "data" then .ok .Data
  else .error (.invalidDescriptor ("Tensor node has an invalid type " ++ typeStr))

/-- The `InputBuffer`/`OutputBuffer` branch of the `Tensor` loop
(custom_kernel.cpp:108-114): `kp.bufferSizeRule = parseSizeRule(size)[0]`
— an out-of-bounds `operator[]` when the split is empty — and
`parseDimSource(dim)`; for other kinds the fields keep their defaults. -/
def parseBufferFields (tensor : XmlNode) (ty : CustomParamType) :
    Except KernelError (String × CustomDimSource × Int) :=
  if ty = CustomParamType.InputBuffer ∨ ty = CustomParamType.OutputBuffer then
    match getStrAttr tensor "size" with
    | .error e => .error e
    | .ok sizeRule =>
        match (parseSizeRule sizeRule).head? with
        | none => .error KernelError.outOfBounds
        | some first =>
            match getStrAttr tensor "dim" with
            | .error e => .error e
            | .ok dimString =>
                match parseDimSource dimString with
                | .error e => .error e
                | .ok (ds, di) => .ok (first, ds, di)
  else .ok ("", CustomDimSource.Input, (-1 : Int))

def processTensor (tensor : XmlNode) : Except KernelError KernelParam :=
  match getStrAttr tensor "type" with
  | .error e => .error e
  | .ok typeStr =>
      match parseTensorType typeStr with
      | .error e => .error e
      | .ok ty =>
          match parseBufferFields tensor ty with
          | .error e => .error e
          | .ok (bufferSizeRule, ds, di) =>
              match formatFromString (getStrAttrD tensor "format" "BFYX") with
              | .error e => .error e
              | .ok format =>
                  match getStrAttr tensor "arg-name" with
                  | .error e => .error e
                  | .ok argName =>
                      match getIntAttr tensor "port-index" with
                      | .error e => .error e
                      | .ok portIndex =>
                          .ok { type := ty, format := format, argName := argName,
                                portIndex := portIndex, irSource := "",
                                bufferSizeRule := bufferSizeRule,
                                dimSource := ds, dimIdx := di }

/-- Body of the `Data` loop of `CustomKernel::processParametersNode`
(custom_kernel.cpp:123-158): parse `type` (data / local_data); read
`arg-name`, `source`, `dim`; reject when both or neither of
`source`/`dim` are non-empty; only in the `LocalData` branch read `size`
and parse a non-empty `dim` — for kind `Data` the `dim` string is never
parsed and the dimension fields keep their defaults. -/
def parseDataType (typeStr : String) : Except KernelError CustomParamType :=
  if ciEq typeStr "data" then .ok .Data
  else if ciEq typeStr "local_data" then .ok .LocalData
  else .error (.invalidDescriptor ("Data node has an invalid type " ++ typeStr))

def processData (data : XmlNode) : Except KernelError KernelParam :=
  match getStrAttr data "type" with
  | .error e => .error e
  | .ok typeStr =>
      match parseDataType typeStr with
      | .error e => .error e
      | .ok ty =>
          match getStrAttr data "arg-name" with
          | .error e => .error e
          | .ok argName =>
              let irSource := getStrAttrD data "source" ""
              let dimString := getStrAttrD data "dim" ""
              if irSource = "" ∧ dimString = "" then
                .error (.invalidDescriptor "Data node has no source or dim")
              else if irSource ≠ "" ∧ dimString ≠ "" then
                .error (.invalidDescriptor "Data node can only have source or dim")
              else if ty = CustomParamType.LocalData then
                let bufferSize := getStrAttrD data "size" ""
                if dimString ≠ "" then
                  match parseDimSource dimString with
                  | .error e => .error e
                  | .ok (ds, di) =>
                      .ok { type := ty, argName := argName, irSource := irSource,
                            bufferSizeRule := bufferSize,
                            dimSource := ds, dimIdx := di }
                else
                  .ok { type := ty, argName := argName, irSource := irSource,
                        bufferSizeRule := bufferSize }
              else
                .ok { type := ty, argName := argName, irSource := irSource }

/-- Body of the `Scalar` loop of `CustomKernel::processParametersNode`
(custom_kernel.cpp:160-177). -/
def parseScalarType (typeStr : String) : Except KernelError CustomParamType :=
  if ciEq typeStr "int" then .ok .Int
  else if ciEq typeStr "float" then .ok .Float
  else .error (.invalidDescriptor ("Scalar node has an invalid type " ++ typeStr))

def processScalar (scalar : XmlNode) : Except KernelError KernelParam :=
  match getStrAttr scalar "type" with
  | .error e => .error e
  | .ok typeStr =>
      match parseScalarType typeStr with
      | .error e => .error e
      | .ok ty =>
          match getStrAttr scalar "arg-name" with
          | .error e => .error e
          | .ok argName =>
              match getIntAttrD scalar "port-index" (-1) with
              | .error e => .error e
              | .ok portIndex =>
                  .ok { type := ty, argName := argName, portIndex := portIndex,
                        irSource := getStrAttrD scalar "source" "" }

/-- The children of the `Parameters` child of the descriptor node that
carry a given element name (empty when there is no `Parameters` child,
matching pugixml's empty-node chaining). -/
def paramChildren (node : XmlNode) (name : String) : List XmlNode :=
  match node.child "Parameters" with
  | none => []
  | some p => p.childrenNamed name

/-- `CustomKernel::processParametersNode` (custom_kernel.cpp:86-178):
three loops over the `Tensor`, then `Data`, then `Scalar` children of the
`Parameters` block, appending one parameter per element in document
order. -/
def processParametersNode (node : XmlNode) : Except KernelError (List KernelParam) := do
  let ts ← mapE processTensor (paramChildren node "Tensor")
  let ds ← mapE processData (paramChildren node "Data")
  let ss ← mapE processScalar (paramChildren node "Scalar")
  Except.ok (ts ++ ds ++ ss)

/-- One argument record of the external metadata parser:
`get_name(arg)` and the `md_arg_flags_generated_prepost` bit of
`arg->flags`. -/
structure MdArgument where
  name : String
  generatedPrepost : Bool
deriving DecidableEq, Repr

/-- One kernel record: `arg_count` is the count the parser reports (one
more than the number of real arguments, per the collaborator's contract);
`get_argument(desc, i)` indexes `args`. -/
structure MdKernel where
  name : String
  argCount : Nat
  args : List MdArgument
deriving DecidableEq, Repr

/-- The external `md_parser_t` query object, reduced to the interface the
loader consumes: kernels in binary order. -/
structure MdParser where
  kernels : List MdKernel
deriving DecidableEq, Repr

/-- Index of the first list element satisfying the predicate. -/
def findIdxAux (p : MdKernel → Bool) : List MdKernel → Option Nat
  | [] => none
  | k :: ks => if p k then some 0 else (findIdxAux p ks).map (fun i => i + 1)

/-- `md_parser_t::get_kernel_id(name)`: index of the kernel with that
name, `-1` when absent. -/
def MdParser.getKernelId (p : MdParser) (name : String) : Int :=
  match findIdxAux (fun k => k.name == name) p.kernels with
  | some i => (i : Int)
  | none => -1

/-- `md_parser_t::get_kernel_count()`. -/
def MdParser.getKernelCount (p : MdParser) : Nat :=
  p.kernels.length

/-- `md_parser_t::get_kernel(id)`: null when the id is out of range. -/
def MdParser.getKernel (p : MdParser) (id : Int) : Option MdKernel :=
  if id < 0 then none else p.kernels.get? id.toNat

/-- `md_parser_t::get_argument(desc, i)`: null when out of range. -/
def MdKernel.getArgument (k : MdKernel) (i : Nat) : Option MdArgument :=
  k.args.get? i

/-- The `for (size_t i = 0; i < argCount; i++)` loop of
`deduceKernelParameters` (custom_cl_kernel.cpp:52-63), over the list of
indices still to visit: a null argument throws, a hoisted argument
(`flags & md_arg_flags_generated_prepost`) is skipped, every other
argument contributes its name in order. -/
def collectArgs (k : MdKernel) : List Nat → Except KernelError (List String)
  | [] => .ok []
  | i :: is =>
      match k.getArgument i with
      | none => .error (.metadataError "Error while parsing custom layer elf file.")
      | some arg =>
          match collectArgs k is with
          | .error e => .error e
          | .ok rest => .ok (if arg.generatedPrepost then rest else arg.name :: rest)

/-- `deduceKernelParameters` (custom_cl_kernel.cpp:44-66): assert the
kernel exists, then walk the first `arg_count - 1` reported arguments
(`const auto argCount = kernelDesc->arg_count - 1`). -/
def deduceKernelParameters (parser : MdParser) (kernelId : Int) :
    Except KernelError (List String) :=
  match parser.getKernel kernelId with
  | none => .error (.metadataError "IE_ASSERT kernelDesc != nullptr")
  | some k => collectArgs k (List.range (k.argCount - 1))

/-- The kernel-resolution tail of `CustomClKernel::CustomClKernel`
(custom_cl_kernel.cpp:137-145), after both metadata sections have been
located and the parser constructed: resolve the entry name (`-1` means
not found, `BinaryMismatch`), then require exactly one kernel in the
binary (`BinaryMismatch` reporting the actual count), then deduce the
argument names. -/
def resolveKernel (parser : MdParser) (entryName : String) :
    Except KernelError (Int × List String) := do
  let kernelId := parser.getKernelId entryName
  if kernelId = -1 then
    Except.error (.binaryMismatchEntry entryName)
  else if parser.getKernelCount ≠ 1 then
    Except.error (.binaryMismatchCount parser.getKernelCount)
  else do
    let names ← deduceKernelParameters parser kernelId
    Except.ok (kernelId, names)

/-- The `isInputData` predicate used by both constructors
(custom_kernel.cpp:187-190, custom_cl_kernel.cpp:113-116). -/
def isInputData (p : KernelParam) : Bool :=
  p.type == CustomParamType.Input || p.type == CustomParamType.InputBuffer ||
  p.type == CustomParamType.Data

/-- `CustomCppKernel::processWorkSizesNode` (custom_kernel.cpp:203-208):
required `dim` attribute of the `WorkSizes` child, parsed by
`parseDimSource`.  A missing `WorkSizes` child behaves like a node with
no attributes (pugixml empty node), so `GetStrAttr` throws. -/
def processWorkSizesCpp (node : XmlNode) : Except KernelError (CustomDimSource × Int) := do
  let ws := (node.child "WorkSizes").getD (XmlNode.mk "WorkSizes" [] [])
  let dims ← getStrAttr ws "dim"
  parseDimSource dims

/-- `CustomClKernel::processWorkSizesNode` (custom_cl_kernel.cpp:152-163):
`dim` via `parseDimSource`, then required `global` and `local` attributes
via `parseSizeRule`. -/
def processWorkSizesCl (node : XmlNode) :
    Except KernelError ((CustomDimSource × Int) × List String × List String) := do
  let ws := (node.child "WorkSizes").getD (XmlNode.mk "WorkSizes" [] [])
  let dims ← getStrAttr ws "dim"
  let wg ← parseDimSource dims
  let gwgs ← getStrAttr ws "global"
  let lwgs ← getStrAttr ws "local"
  Except.ok (wg, parseSizeRule gwgs, parseSizeRule lwgs)

/-- The fields of a constructed `CustomCppKernel` (custom_kernel.hpp). -/
structure CustomCppKernel where
  kernelBinary : String
  kernelParams : List KernelParam
  parameters : List String
  wgDimSource : CustomDimSource
  wgDimIdx : Int
  maxShaves : Int
  inputDataCount : Nat
deriving DecidableEq, Repr

/-- `CustomCppKernel::CustomCppKernel` (custom_kernel.cpp:180-197):
`max-shaves` (default 0), kernel binary, parameters block, work sizes,
`_inputDataCount` by `count_if(isInputData)`, `_parameters` as the
declared argument names in order. -/
def buildCppKernel (node : XmlNode) (configDir : String)
    (fs : String → Option String) : Except KernelError CustomCppKernel := do
  let maxShaves ← getIntAttrD node "max-shaves" 0
  let bin ← loadKernelBinary node configDir fs
  let params ← processParametersNode node
  let (wgDs, wgDi) ← processWorkSizesCpp node
  Except.ok { kernelBinary := bin, kernelParams := params,
              parameters := params.map (fun p => p.argName),
              wgDimSource := wgDs, wgDimIdx := wgDi, maxShaves := maxShaves,
              inputDataCount := params.countP (fun p => isInputData p) }

/-- The fields of a constructed `CustomClKernel` (custom_kernel.hpp). -/
structure CustomClKernel where
  kernelBinary : String
  kernelParams : List KernelParam
  parameters : List String
  wgDimSource : CustomDimSource
  wgDimIdx : Int
  maxShaves : Int
  inputDataCount : Nat
  globalGridSizeRules : List String
  localGridSizeRules : List String
  kernelId : Int
deriving DecidableEq, Repr

/-- `CustomClKernel::CustomClKernel` (custom_cl_kernel.cpp:106-146).
The raw ELF section walk (`get_elf_section_with_name` for
`.neo_metadata` / `.neo_metadata.str`) and the `md_parser_t`
construction over the located byte ranges are modelled by the
`locate` parameter: it turns the binary payload into the metadata
query object, or fails (`MalformedBinary` when a section is absent). -/
def buildClKernel (node : XmlNode) (configDir : String)
    (fs : String → Option String)
    (locate : String → Except KernelError MdParser) :
    Except KernelError CustomClKernel := do
  let maxShaves ← getIntAttrD node "max-shaves" 0
  let bin ← loadKernelBinary node configDir fs
  let params ← processParametersNode node
  let ((wgDs, wgDi), ggs, lgs) ← processWorkSizesCl node
  let inputDataCount := params.countP (fun p => isInputData p)
  let entry ← getStrAttr node "entry"
  let parser ← locate bin
  let (kid, names) ← resolveKernel parser entry
  Except.ok { kernelBinary := bin, kernelParams := params, parameters := names,
              wgDimSource := wgDs, wgDimIdx := wgDi, maxShaves := maxShaves,
              inputDataCount := inputDataCount,
              globalGridSizeRules := ggs, localGridSizeRules := lgs,
              kernelId := kid }

/-! ### Helper lemmas -/

theorem exceptBind_ok {α β : Type} {x : Except KernelError α}
    {f : α → Except KernelError β} {b : β} :
    x >>= f = Except.ok b ↔ ∃ a, x = Except.ok a ∧ f a = Except.ok b := by
  cases x with
  | ok a => simp [Bind.bind, Except.bind]
  | error e => simp [Bind.bind, Except.bind]

theorem bind_ok_reduce {α β : Type} (a : α) (f : α → Except KernelError β) :
    (Except.ok a >>= f) = f a := rfl

theorem bind_error_reduce {α β : Type} (e : KernelError)
    (f : α → Except KernelError β) :
    ((Except.error e : Except KernelError α) >>= f) = Except.error e := rfl

theorem mapE_ok_pointwise {f : XmlNode → Except KernelError KernelParam} :
    ∀ {l : List XmlNode} {res : List KernelParam}, mapE f l = Except.ok res →
      res.length = l.length ∧
      (∀ i a, l.get? i = some a → ∃ b, res.get? i = some b ∧ f a = Except.ok b) := by
  intro l
  induction l with
  | nil =>
    intro res h
    simp only [mapE] at h
    cases h
    exact ⟨rfl, by intro i a ha; simp at ha⟩
  | cons a as ih =>
    intro res h
    simp only [mapE] at h
    split at h
    · exact absurd h (by simp)
    next b hfa =>
      split at h
      · exact absurd h (by simp)
      next bs hr =>
        cases h
        obtain ⟨hlen, hpt⟩ := ih hr
        refine ⟨by simp [hlen], ?_⟩
        intro i x hx
        cases i with
        | zero =>
          simp only [List.get?] at hx
          cases hx
          exact ⟨b, rfl, hfa⟩
        | succ j =>
          simp only [List.get?] at hx ⊢
          exact hpt j x hx

theorem mapE_ok_mem {f : XmlNode → Except KernelError KernelParam} :
    ∀ {l : List XmlNode} {res : List KernelParam}, mapE f l = Except.ok res →
      ∀ a ∈ l, ∃ b ∈ res, f a = Except.ok b := by
  intro l
  induction l with
  | nil => intro res _ a ha; simp at ha
  | cons x xs ih =>
    intro res h a ha
    simp only [mapE] at h
    split at h
    · exact absurd h (by simp)
    next b hfa =>
      split at h
      · exact absurd h (by simp)
      next bs hr =>
        cases h
        rcases List.mem_cons.mp ha with rfl | hmem
        · exact ⟨b, List.mem_cons_self _ _, hfa⟩
        · obtain ⟨c, hc, hfc⟩ := ih hr a hmem
          exact ⟨c, List.mem_cons_of_mem _ hc, hfc⟩

theorem processParams_decompose {node : XmlNode} {ps : List KernelParam}
    (h : processParametersNode node = Except.ok ps) :
    ∃ ts ds ss, mapE processTensor (paramChildren node "Tensor") = Except.ok ts ∧
      mapE processData (paramChildren node "Data") = Except.ok ds ∧
      mapE processScalar (paramChildren node "Scalar") = Except.ok ss ∧
      ps = ts ++ ds ++ ss := by
  simp only [processParametersNode, exceptBind_ok] at h
  obtain ⟨ts, hts, ds, hds, ss, hss, hps⟩ := h
  cases hps
  exact ⟨ts, ds, ss, hts, hds, hss, rfl⟩

theorem splitSpecGo_ne_nil : ∀ (cs : List Char) (cur : List Char), splitSpecGo cur cs ≠ [] := by
  intro cs
  induction cs with
  | nil => intro cur; simp [splitSpecGo]
  | cons c rest ih =>
    intro cur
    simp only [splitSpecGo]
    split
    · simp
    · exact ih (c :: cur)

theorem dropLast_cons_ne_nil {α : Type} (a : α) {l : List α} (h : l ≠ []) :
    (a :: l).dropLast = a :: l.dropLast := by
  cases l with
  | nil => exact absurd rfl h
  | cons b bs => rfl

theorem getlineGo_comma_cons (cur : List Char) (r : Char) (rs : List Char) :
    getlineGo cur (',' :: r :: rs) = cur.reverse :: getlineGo [] (r :: rs) := rfl

theorem getlineGo_other (cur : List Char) {c : Char} (cs : List Char) (h : c ≠ ',') :
    getlineGo cur (c :: cs) = getlineGo (c :: cur) cs := by
  simp only [getlineGo, if_neg h]

theorem splitSpecGo_comma (cur : List Char) (rs : List Char) :
    splitSpecGo cur (',' :: rs) = cur.reverse :: splitSpecGo [] rs := rfl

theorem splitSpecGo_other (cur : List Char) {c : Char} (cs : List Char) (h : c ≠ ',') :
    splitSpecGo cur (c :: cs) = splitSpecGo (c :: cur) cs := by
  simp only [splitSpecGo, if_neg h]

/-- The `getline` loop agrees with the spec's all-elements split except
that a trailing comma yields one fewer element. -/
theorem getlineGo_eq_splitSpecGo : ∀ (cs : List Char) (cur : List Char),
    getlineGo cur cs =
      if cs.getLast? = some ',' then (splitSpecGo cur cs).dropLast else splitSpecGo cur cs := by
  intro cs
  induction cs with
  | nil => intro cur; simp [getlineGo, splitSpecGo]
  | cons c rest ih =>
    intro cur
    by_cases hc : c = ','
    · subst hc
      cases rest with
      | nil => simp [getlineGo, splitSpecGo]
      | cons r rs =>
        rw [List.getLast?_cons_cons, getlineGo_comma_cons, splitSpecGo_comma, ih []]
        by_cases hl : (r :: rs).getLast? = some ','
        · rw [if_pos hl, if_pos hl, dropLast_cons_ne_nil _ (splitSpecGo_ne_nil _ _)]
        · rw [if_neg hl, if_neg hl]
    · cases rest with
      | nil =>
        rw [getlineGo_other _ _ hc, splitSpecGo_other _ _ hc]
        simp [getlineGo, splitSpecGo, hc]
      | cons r rs =>
        rw [List.getLast?_cons_cons, getlineGo_other _ _ hc, splitSpecGo_other _ _ hc]
        exact ih (c :: cur)

/-- The head of the `getline` loop output is the accumulator followed by
the characters before the first comma. -/
theorem getlineGo_head : ∀ (cs : List Char) (cur : List Char),
    (getlineGo cur cs).head? = some (cur.reverse ++ cs.takeWhile (fun c => c ≠ ',')) := by
  intro cs
  induction cs with
  | nil => intro cur; simp [getlineGo]
  | cons c rest ih =>
    intro cur
    by_cases hc : c = ','
    · subst hc
      cases rest with
      | nil => simp [getlineGo, List.takeWhile_cons]
      | cons r rs => rw [getlineGo_comma_cons]; simp [List.takeWhile_cons]
    · rw [getlineGo_other _ _ hc, ih (c :: cur)]
      simp [List.takeWhile_cons, hc]

theorem toList_eq_nil_iff {s : String} : s.toList = [] ↔ s = "" :=
  ⟨fun h => String.ext h, fun h => by rw [h]; rfl⟩

theorem ciEq_trans_ne {a b c : String} (hab : ciEq a b = true)
    (hbc : ciEq b c = false) : ciEq a c = false := by
  simp only [ciEq, beq_iff_eq] at hab
  simp only [ciEq, beq_eq_false_iff_ne] at hbc ⊢
  rw [hab]
  exact hbc

theorem findIdxAux_none_iff (p : MdKernel → Bool) :
    ∀ l : List MdKernel, findIdxAux p l = none ↔ ∀ k ∈ l, p k = false := by
  intro l
  induction l with
  | nil => simp [findIdxAux]
  | cons k ks ih =>
    simp only [findIdxAux]
    by_cases hp : p k
    · simp only [if_pos hp]
      constructor
      · intro h
        simp at h
      · intro h
        have hk := h k (List.mem_cons_self k ks)
        simp [hk] at hp
    · simp only [if_neg hp, Option.map_eq_none']
      rw [ih, Bool.not_eq_true] at *
      constructor
      · intro h k2 hk2
        rcases List.mem_cons.mp hk2 with rfl | hm
        · exact hp
        · exact h k2 hm
      · intro h k2 hm
        exact h k2 (List.mem_cons_of_mem _ hm)

theorem findIdxAux_some_lt (p : MdKernel → Bool) :
    ∀ (l : List MdKernel) (i : Nat), findIdxAux p l = some i → i < l.length := by
  intro l
  induction l with
  | nil => intro i h; simp [findIdxAux] at h
  | cons k ks ih =>
    intro i h
    by_cases hp : p k
    · simp only [findIdxAux, if_pos hp] at h
      cases h
      simp
    · simp only [findIdxAux, if_neg hp, Option.map_eq_some'] at h
      obtain ⟨j, hj, rfl⟩ := h
      have := ih j hj
      simp
      omega

theorem get?_append_cons_length {α : Type} (pre suf : List α) (a : α) :
    (pre ++ a :: suf).get? pre.length = some a := by
  induction pre with
  | nil => rfl
  | cons p ps ih => simpa using ih

theorem collectArgs_ok_bound {k : MdKernel} :
    ∀ {l : List Nat} {res : List String}, collectArgs k l = Except.ok res →
      ∀ i ∈ l, i < k.args.length := by
  intro l
  induction l with
  | nil => intro res _ i hi; simp at hi
  | cons j js ih =>
    intro res h i hi
    simp only [collectArgs] at h
    split at h
    · exact absurd h (by simp)
    next arg harg =>
      split at h
      · exact absurd h (by simp)
      next rest hr =>
        rcases List.mem_cons.mp hi with rfl | hmem
        · have := List.get?_eq_some.mp harg
          exact this.1
        · exact ih hr i hmem

theorem collectArgs_range' {k : MdKernel} :
    ∀ (n : Nat) (pre suf : List MdArgument), k.args = pre ++ suf → n ≤ suf.length →
      collectArgs k (List.range' pre.length n) =
        Except.ok (((suf.take n).filter (fun a => !a.generatedPrepost)).map
          (fun a => a.name)) := by
  intro n
  induction n with
  | zero =>
    intro pre suf _ _
    simp [collectArgs]
  | succ m ih =>
    intro pre suf h hn
    cases suf with
    | nil => simp at hn
    | cons a suf2 =>
      have hget : k.getArgument pre.length = some a := by
        simp only [MdKernel.getArgument, h]
        exact get?_append_cons_length pre suf2 a
      have ih2 : collectArgs k (List.range' (pre.length + 1) m) =
          Except.ok (((suf2.take m).filter (fun a => !a.generatedPrepost)).map
            (fun a => a.name)) := by
        have := ih (pre ++ [a]) suf2 (by rw [h, List.append_assoc]; rfl) (by
          simpa using hn)
        simpa using this
      rw [List.range'_succ]
      simp only [collectArgs, hget, ih2]
      cases hgp : a.generatedPrepost <;> simp [hgp, List.filter, List.take_succ_cons]

theorem getlineSplit_cons (c : Char) (cs : List Char) :
    getlineSplit (c :: cs) = getlineGo [] (c :: cs) := rfl

/-! ### Claims -/

/-- C2, counterexample: `parseSizeRule` does not preserve a trailing
empty element produced by the split — `"a,"` yields `["a"]`, while the
spec's split (trailing/empty elements preserved literally) yields
`["a", ""]`. -/
theorem C2_counterexample :
    parseSizeRule "a," ≠ splitSpec "a," ∧
    parseSizeRule "a," = ["a"] ∧ splitSpec "a," = ["a", ""] := by decide

/-- C2, amended: `parseSizeRule` splits on commas into an ordered list of
substrings kept verbatim with no trimming, and interior empty elements
are preserved; but a trailing empty element after a final comma is
dropped (the final `std::getline` extracts nothing and fails), and the
empty string yields the empty list.  In particular
`parseSizeRule "1,H,W" = ["1","H","W"]` and `parseSizeRule "X" = ["X"]`. -/
theorem C2_parseSizeRule_amended :
    (∀ s : String, parseSizeRule s =
      if s = "" then []
      else if s.toList.getLast? = some ',' then (splitSpec s).dropLast
      else splitSpec s) ∧
    parseSizeRule "1,H,W" = ["1", "H", "W"] ∧
    parseSizeRule "X" = ["X"] ∧
    parseSizeRule "a,,b" = ["a", "", "b"] ∧
    parseSizeRule ",b" = ["", "b"] := by
  refine ⟨?_, by decide, by decide, by decide, by decide⟩
  intro s
  by_cases hs : s = ""
  · subst hs; decide
  · rw [if_neg hs]
    have hne : s.toList ≠ [] := fun h => hs (toList_eq_nil_iff.mp h)
    obtain ⟨c, cs, hcs⟩ := List.exists_cons_of_ne_nil hne
    unfold parseSizeRule splitSpec
    rw [hcs, getlineSplit_cons, getlineGo_eq_splitSpecGo]
    by_cases hl : (c :: cs).getLast? = some ','
    · rw [if_pos hl, if_pos hl, List.map_dropLast]
    · rw [if_neg hl, if_neg hl]

/-- C5, counterexample: the part after the comma is parsed by
`std::stoi`, which accepts a sign, so a negative index is returned —
refuting "parsed as a non-negative integer index". -/
theorem C5_counterexample :
    parseDimSource "input,-3" = Except.ok (CustomDimSource.Input, -3) ∧
    (-3 : Int) < 0 := by decide

/-- C5, amended: `parseDimSource` splits at the first comma; the left
substring must equal "input" or "output" case-insensitively, else
`InvalidDescriptor`; with no comma the index is `-1`; with a comma the
right substring is handed to `std::stoi`, which parses a signed integer
(so a negative index such as `"input,-3"` is accepted) and throws
`std::invalid_argument` — not `InvalidDescriptor` — on an empty or
non-numeric right substring.  `parseDimSource "input,2" = (Input, 2)`,
`parseDimSource "output" = (Output, -1)`, `parseDimSource "bogus"`
fails. -/
theorem C5_parseDimSource_amended :
    parseDimSource "input,2" = Except.ok (CustomDimSource.Input, 2) ∧
    parseDimSource "output" = Except.ok (CustomDimSource.Output, -1) ∧
    parseDimSource "bogus" =
      Except.error (.invalidDescriptor "Invalid dim source argumentbogus") ∧
    parseDimSource "input," = Except.error KernelError.stoiInvalidArgument ∧
    (∀ s ds i, parseDimSource s = Except.ok (ds, i) →
      (ciEq (String.mk (s.toList.takeWhile (fun c => c ≠ ','))) "input" = true ∧
        ds = CustomDimSource.Input) ∨
      (ciEq (String.mk (s.toList.takeWhile (fun c => c ≠ ','))) "output" = true ∧
        ds = CustomDimSource.Output)) ∧
    (∀ s ds i, parseDimSource s = Except.ok (ds, i) → ¬ ',' ∈ s.toList → i = -1) ∧
    (∀ s ds i, parseDimSource s = Except.ok (ds, i) → ',' ∈ s.toList →
      stoi ((s.toList.dropWhile (fun c => c ≠ ',')).tail) = Except.ok i) := by
  refine ⟨by decide, by decide, by decide, by decide, ?_, ?_, ?_⟩
  · intro s ds i h
    simp only [parseDimSource, bind_ok_reduce] at h
    split at h
    next h1 =>
      refine Or.inl ⟨h1, ?_⟩
      split at h
      · simp only [bind_ok_reduce, Except.ok.injEq, Prod.mk.injEq] at h
        exact h.1.symm
      · cases hst : stoi _ <;> rw [hst] at h <;>
          simp only [bind_ok_reduce, bind_error_reduce] at h
        · cases h
        · simp only [Except.ok.injEq, Prod.mk.injEq] at h
          exact h.1.symm
    next h1 =>
      split at h
      next h2 =>
        refine Or.inr ⟨h2, ?_⟩
        split at h
        · simp only [bind_ok_reduce, Except.ok.injEq, Prod.mk.injEq] at h
          exact h.1.symm
        · cases hst : stoi _ <;> rw [hst] at h <;>
            simp only [bind_ok_reduce, bind_error_reduce] at h
          · cases h
          · simp only [Except.ok.injEq, Prod.mk.injEq] at h
            exact h.1.symm
      next h2 => simp only [bind_error_reduce] at h; cases h
  · intro s ds i h hmem
    have hdw : s.toList.dropWhile (fun c => decide (c ≠ ',')) = [] := by
      rw [List.dropWhile_eq_nil_iff]
      intro x hx
      simp only [decide_eq_true_eq]
      intro hc
      exact hmem (hc ▸ hx)
    simp only [parseDimSource, hdw, bind_ok_reduce, bind_error_reduce] at h
    split at h
    · simp only [Except.ok.injEq, Prod.mk.injEq] at h
      exact h.2.symm
    · split at h
      · simp only [Except.ok.injEq, Prod.mk.injEq] at h
        exact h.2.symm
      · cases h
  · intro s ds i h hmem
    cases hdw : s.toList.dropWhile (fun c => decide (c ≠ ',')) with
    | nil =>
      exfalso
      rw [List.dropWhile_eq_nil_iff] at hdw
      have := hdw ',' hmem
      simp at this
    | cons d rest =>
      simp only [List.tail_cons]
      simp only [parseDimSource, hdw, bind_ok_reduce, bind_error_reduce] at h
      split at h
      · cases hst : stoi rest <;> rw [hst] at h <;>
          simp only [bind_ok_reduce, bind_error_reduce] at h
        · cases h
        · simp only [Except.ok.injEq, Prod.mk.injEq] at h
          rw [h.2]
      · split at h
        · cases hst : stoi rest <;> rw [hst] at h <;>
            simp only [bind_ok_reduce, bind_error_reduce] at h
          · cases h
          · simp only [Except.ok.injEq, Prod.mk.injEq] at h
            rw [h.2]
        · cases h

/-- C6: `loadKernelBinary` consults only the first `Source` child: it
returns the contents of the file at `configDir + "/" + filename` of that
child, fails `FileNotFound` when the path cannot be opened, fails
`InvalidDescriptor` when the node has no `Source` child, and its result
depends only on the first `Source` child (later ones are never
consulted). -/
theorem C6_loadKernelBinary : ∀ (node : XmlNode) (configDir : String)
    (fs : String → Option String),
    (node.childrenNamed "Source" = [] →
      loadKernelBinary node configDir fs =
        Except.error (.invalidDescriptor "Kernel binary not found")) ∧
    (∀ src rest content, node.childrenNamed "Source" = src :: rest →
      fs (configDir ++ "/" ++ getStrAttrD src "filename" "") = some content →
      loadKernelBinary node configDir fs = Except.ok content) ∧
    (∀ src rest, node.childrenNamed "Source" = src :: rest →
      fs (configDir ++ "/" ++ getStrAttrD src "filename" "") = none →
      loadKernelBinary node configDir fs =
        Except.error (.fileNotFound (configDir ++ "/" ++ getStrAttrD src "filename" ""))) ∧
    (∀ node2 : XmlNode,
      (node.childrenNamed "Source").head? = (node2.childrenNamed "Source").head? →
      loadKernelBinary node configDir fs = loadKernelBinary node2 configDir fs) := by
  intro node configDir fs
  refine ⟨?_, ?_, ?_, ?_⟩
  · intro h
    simp [loadKernelBinary, h]
  · intro src rest content h hfs
    simp [loadKernelBinary, h, hfs]
  · intro src rest h hfs
    simp [loadKernelBinary, h, hfs]
  · intro node2 h
    simp only [loadKernelBinary]
    rw [h]

/-- A `Source` element fixture. -/
def srcElemA : XmlNode := XmlNode.mk "Source" [("filename", "kernel.bin")] []

/-- A filesystem fixture mapping the resolved path to a payload. -/
def fsA : String → Option String :=
  fun p => if p = "cfg/kernel.bin" then some "BINARY" else none

theorem C5_witness :
    stoi (("input,2".toList.dropWhile (fun c => c ≠ ',')).tail) = Except.ok 2 :=
  C5_parseDimSource_amended.2.2.2.2.2.2 "input,2" CustomDimSource.Input 2
    (by decide) (by decide)

theorem C6_witness :
    loadKernelBinary (XmlNode.mk "CustomLayer" [] [srcElemA]) "cfg" fsA =
      Except.ok "BINARY" :=
  (C6_loadKernelBinary (XmlNode.mk "CustomLayer" [] [srcElemA]) "cfg" fsA).2.1
    srcElemA [] "BINARY" rfl (by decide)

/-- Metadata fixtures: one kernel reporting `arg_count = 4` (one more
than its three real arguments), with one hoisted argument. -/
def sampleArgs : List MdArgument :=
  [⟨"A", false⟩, ⟨"h", true⟩, ⟨"B", false⟩, ⟨"sentinel", false⟩]

def sampleKernel : MdKernel := ⟨"sample", 4, sampleArgs⟩

def sampleParser : MdParser := ⟨[sampleKernel]⟩

/-- C3: when `deduceKernelParameters` succeeds, the result enumerates the
first `arg_count - 1` declared arguments in order, drops exactly those
flagged `md_arg_flags_generated_prepost`, and keeps the remaining names
in the binary's relative order (the result is a sublist of the full
argument-name list). -/
theorem C3_deduceKernelParameters (parser : MdParser) (kernelId : Int)
    (k : MdKernel) (names : List String)
    (hk : parser.getKernel kernelId = some k)
    (h : deduceKernelParameters parser kernelId = Except.ok names) :
    names = ((k.args.take (k.argCount - 1)).filter
      (fun a => !a.generatedPrepost)).map (fun a => a.name) ∧
    names.Sublist (k.args.map (fun a => a.name)) := by
  simp only [deduceKernelParameters, hk] at h
  have hbound := collectArgs_ok_bound h
  have hle : k.argCount - 1 ≤ k.args.length := by
    cases hn : k.argCount - 1 with
    | zero => simp
    | succ m =>
      have := hbound m (by rw [hn]; simp [List.mem_range])
      omega
  have hchar := collectArgs_range' (k := k) (k.argCount - 1) [] k.args (by simp) hle
  simp only [List.length_nil] at hchar
  rw [List.range_eq_range', hchar] at h
  simp only [Except.ok.injEq] at h
  subst h
  refine ⟨rfl, ?_⟩
  exact ((List.filter_sublist _).trans (List.take_sublist _ _)).map _

theorem C3_witness :
    (["A", "B"] : List String) =
      ((sampleKernel.args.take (sampleKernel.argCount - 1)).filter
        (fun a => !a.generatedPrepost)).map (fun a => a.name) ∧
    (["A", "B"] : List String).Sublist (sampleKernel.args.map (fun a => a.name)) :=
  C3_deduceKernelParameters sampleParser 0 sampleKernel ["A", "B"]
    (by decide) (by decide)

/-- A metadata fixture holding two kernels. -/
def twoKernelParser : MdParser := ⟨[⟨"k1", 3, []⟩, ⟨"k2", 1, []⟩]⟩

/-- C4: after the metadata sections are located, the constructor first
fails `BinaryMismatch` when no kernel matches the entry name; otherwise,
when the binary's kernel count is not exactly 1, it fails
`BinaryMismatch` reporting the actual count (a two-kernel binary reports
count 2); only when both checks pass are the argument names deduced. -/
theorem C4_resolveKernel : ∀ (parser : MdParser) (entry : String),
    ((∀ k ∈ parser.kernels, k.name ≠ entry) →
      resolveKernel parser entry = Except.error (.binaryMismatchEntry entry)) ∧
    ((∃ k ∈ parser.kernels, k.name = entry) → parser.getKernelCount ≠ 1 →
      resolveKernel parser entry =
        Except.error (.binaryMismatchCount parser.getKernelCount)) ∧
    ((∃ k ∈ parser.kernels, k.name = entry) → parser.getKernelCount = 1 →
      resolveKernel parser entry =
        Except.map (fun names => (parser.getKernelId entry, names))
          (deduceKernelParameters parser (parser.getKernelId entry))) ∧
    resolveKernel twoKernelParser "k1" =
      Except.error (.binaryMismatchCount 2) := by
  intro parser entry
  refine ⟨?_, ?_, ?_, by decide⟩
  · intro hnone
    have hidx : findIdxAux (fun k => k.name == entry) parser.kernels = none := by
      rw [findIdxAux_none_iff]
      intro k hk
      rw [beq_eq_false_iff_ne]
      exact hnone k hk
    have hid : parser.getKernelId entry = -1 := by
      simp [MdParser.getKernelId, hidx]
    simp [resolveKernel, hid]
  · intro hex hcount
    obtain ⟨k0, hk0mem, hk0name⟩ := hex
    have hidx : findIdxAux (fun k => k.name == entry) parser.kernels ≠ none := by
      rw [Ne, findIdxAux_none_iff]
      intro hall
      have := hall k0 hk0mem
      rw [hk0name] at this
      simp at this
    cases hfi : findIdxAux (fun k => k.name == entry) parser.kernels with
    | none => exact absurd hfi hidx
    | some j =>
      have hid : parser.getKernelId entry = (j : Int) := by
        simp [MdParser.getKernelId, hfi]
      have hne : ((j : Int) = -1) = False := by
        simp
      simp only [resolveKernel, hid, hne, if_false]
      rw [if_pos hcount]
  · intro hex hcount
    obtain ⟨k0, hk0mem, hk0name⟩ := hex
    have hidx : findIdxAux (fun k => k.name == entry) parser.kernels ≠ none := by
      rw [Ne, findIdxAux_none_iff]
      intro hall
      have := hall k0 hk0mem
      rw [hk0name] at this
      simp at this
    cases hfi : findIdxAux (fun k => k.name == entry) parser.kernels with
    | none => exact absurd hfi hidx
    | some j =>
      have hid : parser.getKernelId entry = (j : Int) := by
        simp [MdParser.getKernelId, hfi]
      have hne : ((j : Int) = -1) = False := by
        simp
      simp only [resolveKernel, hid, hne, if_false]
      rw [if_neg (fun hne2 => hne2 hcount)]
      cases hd : deduceKernelParameters parser (j : Int) <;>
        simp [hd, Except.map, bind_ok_reduce, bind_error_reduce]

theorem C4_witness :
    resolveKernel twoKernelParser "k2" = Except.error (.binaryMismatchCount 2) :=
  (C4_resolveKernel twoKernelParser "k2").2.1 ⟨⟨"k2", 1, []⟩, by decide, rfl⟩
    (by decide)

theorem processTensor_ok_inv {t : XmlNode} {p : KernelParam}
    (h : processTensor t = Except.ok p) :
    ∃ typeStr ty trip format argName portIndex,
      getStrAttr t "type" = Except.ok typeStr ∧
      parseTensorType typeStr = Except.ok ty ∧
      parseBufferFields t ty = Except.ok trip ∧
      formatFromString (getStrAttrD t "format" "BFYX") = Except.ok format ∧
      getStrAttr t "arg-name" = Except.ok argName ∧
      getIntAttr t "port-index" = Except.ok portIndex ∧
      p = { type := ty, format := format, argName := argName,
            portIndex := portIndex, irSource := "", bufferSizeRule := trip.1,
            dimSource := trip.2.1, dimIdx := trip.2.2 } := by
  simp only [processTensor] at h
  split at h
  · exact absurd h (by simp)
  next typeStr hts =>
    split at h
    · exact absurd h (by simp)
    next ty hty =>
      split at h
      · exact absurd h (by simp)
      next b ds di htrip =>
        split at h
        · exact absurd h (by simp)
        next format hfmt =>
          split at h
          · exact absurd h (by simp)
          next argName han =>
            split at h
            · exact absurd h (by simp)
            next portIndex hpi =>
              simp only [Except.ok.injEq] at h
              exact ⟨typeStr, ty, (b, ds, di), format, argName, portIndex,
                hts, hty, htrip, hfmt, han, hpi, h.symm⟩

/-- C8: `formatFromString` is a case-insensitive lookup in the fixed
six-entry table; `"bfyx"` maps to BFYX (the spec's ChannelsFirst3D); any
text matching none of the six entries fails `InvalidDescriptor`; and a
`Tensor` element without a `format` attribute gets the default token
"BFYX". -/
theorem C8_parseLayoutFormat :
    formatFromString "bfyx" = Except.ok CustomDataFormat.BFYX ∧
    (∀ s : String, ciEq s "BFYX" = false → ciEq s "BYXF" = false →
      ciEq s "FYX" = false → ciEq s "YXF" = false → ciEq s "BF" = false →
      ciEq s "ANY" = false →
      formatFromString s =
        Except.error (.invalidDescriptor ("Tensor node has an invalid format " ++ s))) ∧
    (∀ t p, t.attrs.lookup "format" = none → processTensor t = Except.ok p →
      p.format = CustomDataFormat.BFYX) ∧
    (∀ s : String,
      (ciEq s "BFYX" = true → formatFromString s = Except.ok CustomDataFormat.BFYX) ∧
      (ciEq s "BYXF" = true → formatFromString s = Except.ok CustomDataFormat.BYXF) ∧
      (ciEq s "FYX" = true → formatFromString s = Except.ok CustomDataFormat.FYX) ∧
      (ciEq s "YXF" = true → formatFromString s = Except.ok CustomDataFormat.YXF) ∧
      (ciEq s "BF" = true → formatFromString s = Except.ok CustomDataFormat.BF) ∧
      (ciEq s "ANY" = true → formatFromString s = Except.ok CustomDataFormat.Any)) := by
  refine ⟨by decide, ?_, ?_, ?_⟩
  · intro s h1 h2 h3 h4 h5 h6
    simp [formatFromString, h1, h2, h3, h4, h5, h6]
  · intro t p hnone h
    obtain ⟨typeStr, ty, trip, format, argName, portIndex,
      _, _, _, hfmt, _, _, hp⟩ := processTensor_ok_inv h
    rw [getStrAttrD, hnone, Option.getD_none] at hfmt
    rw [show formatFromString "BFYX" = Except.ok CustomDataFormat.BFYX from by decide]
      at hfmt
    simp only [Except.ok.injEq] at hfmt
    subst hp
    exact hfmt.symm
  · intro s
    refine ⟨?_, ?_, ?_, ?_, ?_, ?_⟩
    · intro h1
      simp [formatFromString, h1]
    · intro h1
      have n1 : ciEq s "BFYX" = false := ciEq_trans_ne h1 (by decide)
      simp [formatFromString, n1, h1]
    · intro h1
      have n1 : ciEq s "BFYX" = false := ciEq_trans_ne h1 (by decide)
      have n2 : ciEq s "BYXF" = false := ciEq_trans_ne h1 (by decide)
      simp [formatFromString, n1, n2, h1]
    · intro h1
      have n1 : ciEq s "BFYX" = false := ciEq_trans_ne h1 (by decide)
      have n2 : ciEq s "BYXF" = false := ciEq_trans_ne h1 (by decide)
      have n3 : ciEq s "FYX" = false := ciEq_trans_ne h1 (by decide)
      simp [formatFromString, n1, n2, n3, h1]
    · intro h1
      have n1 : ciEq s "BFYX" = false := ciEq_trans_ne h1 (by decide)
      have n2 : ciEq s "BYXF" = false := ciEq_trans_ne h1 (by decide)
      have n3 : ciEq s "FYX" = false := ciEq_trans_ne h1 (by decide)
      have n4 : ciEq s "YXF" = false := ciEq_trans_ne h1 (by decide)
      simp [formatFromString, n1, n2, n3, n4, h1]
    · intro h1
      have n1 : ciEq s "BFYX" = false := ciEq_trans_ne h1 (by decide)
      have n2 : ciEq s "BYXF" = false := ciEq_trans_ne h1 (by decide)
      have n3 : ciEq s "FYX" = false := ciEq_trans_ne h1 (by decide)
      have n4 : ciEq s "YXF" = false := ciEq_trans_ne h1 (by decide)
      have n5 : ciEq s "BF" = false := ciEq_trans_ne h1 (by decide)
      simp [formatFromString, n1, n2, n3, n4, n5, h1]

/-- A `Tensor` element without a `format` attribute. -/
def c8Tensor : XmlNode :=
  XmlNode.mk "Tensor" [("type", "input"), ("arg-name", "A"), ("port-index", "0")] []

theorem C8_witness :
    formatFromString "zzz" =
      Except.error (.invalidDescriptor ("Tensor node has an invalid format " ++ "zzz")) ∧
    ({ type := CustomParamType.Input, format := CustomDataFormat.BFYX,
       argName := "A", portIndex := 0 } : KernelParam).format =
      CustomDataFormat.BFYX :=
  ⟨C8_parseLayoutFormat.2.1 "zzz" (by decide) (by decide) (by decide) (by decide)
      (by decide) (by decide),
   C8_parseLayoutFormat.2.2.1 c8Tensor
      { type := CustomParamType.Input, format := CustomDataFormat.BFYX,
        argName := "A", portIndex := 0 } (by decide) (by decide)⟩


/-- C10: for a buffer-kind `Tensor` element the stored `bufferSizeRule`
is exactly the first comma-separated component of the `size` attribute
(the rest is silently discarded); that first component exists iff the
`size` string is non-empty; a present-but-empty `size` makes
`parseSizeRule` return the empty list and the `[0]` access out of
bounds. -/
theorem C10_bufferSizeRule :
    (∀ t p sz, t.attrs.lookup "size" = some sz →
      processTensor t = Except.ok p →
      (p.type = CustomParamType.InputBuffer ∨ p.type = CustomParamType.OutputBuffer) →
      p.bufferSizeRule = String.mk (sz.toList.takeWhile (fun c => c ≠ ','))) ∧
    (∀ s : String, s ≠ "" →
      (parseSizeRule s).head? =
        some (String.mk (s.toList.takeWhile (fun c => c ≠ ',')))) ∧
    parseSizeRule "" = [] ∧
    (∀ t ty, t.attrs.lookup "type" = some ty →
      (ciEq ty "input_buffer" = true ∨ ciEq ty "output_buffer" = true) →
      t.attrs.lookup "size" = some "" →
      processTensor t = Except.error KernelError.outOfBounds) := by
  have head_lemma : ∀ s : String, s ≠ "" →
      (parseSizeRule s).head? =
        some (String.mk (s.toList.takeWhile (fun c => c ≠ ','))) := by
    intro s hs
    have hne : s.toList ≠ [] := fun hl => hs (toList_eq_nil_iff.mp hl)
    obtain ⟨c, cs, hcs⟩ := List.exists_cons_of_ne_nil hne
    unfold parseSizeRule
    rw [hcs, getlineSplit_cons, List.head?_map, getlineGo_head]
    simp
  refine ⟨?_, head_lemma, rfl, ?_⟩
  · intro t p sz hsz h hbuf
    obtain ⟨typeStr, ty, trip, format, argName, portIndex,
      hts, hty, htrip, hfmt, han, hpi, hp⟩ := processTensor_ok_inv h
    have hpt : p.type = ty := by rw [hp]
    rw [hpt] at hbuf
    simp only [parseBufferFields, if_pos hbuf, getStrAttr, hsz] at htrip
    cases hhd : (parseSizeRule sz).head? with
    | none =>
      rw [hhd] at htrip
      exact absurd htrip (by simp)
    | some first =>
      rw [hhd] at htrip
      have hszne : sz ≠ "" := by
        intro h0
        rw [h0, show (parseSizeRule "").head? = none from rfl] at hhd
        exact Option.noConfusion hhd
      have hfirst : first = String.mk (sz.toList.takeWhile (fun c => c ≠ ',')) := by
        have h2 := head_lemma sz hszne
        rw [hhd] at h2
        simp only [Option.some.injEq] at h2
        exact h2
      split at htrip
      · exact absurd htrip (by simp)
      next f2 hf2 =>
        split at htrip
        · exact absurd htrip (by simp)
        next dimAttr hdimAttr =>
          split at htrip
          · exact absurd htrip (by simp)
          next ds3 di3 hpds3 =>
            simp only [Except.ok.injEq] at htrip
            rw [hp]
            show trip.1 = String.mk (sz.toList.takeWhile (fun c => c ≠ ','))
            rw [← htrip]
            have hds : f2 = first := by
              injection hf2 with hh
              exact hh.symm
            show f2 = String.mk (sz.toList.takeWhile (fun c => c ≠ ','))
            rw [hds]
            exact hfirst
  · intro t ty hty hbuf hsz
    have hPT : ∃ bty, parseTensorType ty = Except.ok bty ∧
        (bty = CustomParamType.InputBuffer ∨ bty = CustomParamType.OutputBuffer) := by
      rcases hbuf with hib | hob
      · have h1 : ciEq ty "input" = false := ciEq_trans_ne hib (by decide)
        have h2 : ciEq ty "output" = false := ciEq_trans_ne hib (by decide)
        exact ⟨CustomParamType.InputBuffer,
          by simp [parseTensorType, h1, h2, hib], Or.inl rfl⟩
      · have h1 : ciEq ty "input" = false := ciEq_trans_ne hob (by decide)
        have h2 : ciEq ty "output" = false := ciEq_trans_ne hob (by decide)
        have h3 : ciEq ty "input_buffer" = false := ciEq_trans_ne hob (by decide)
        exact ⟨CustomParamType.OutputBuffer,
          by simp [parseTensorType, h1, h2, h3, hob], Or.inr rfl⟩
    obtain ⟨bty, hbtyEq, hbtyBuf⟩ := hPT
    have h4 : parseBufferFields t bty = Except.error KernelError.outOfBounds := by
      simp only [parseBufferFields, if_pos hbtyBuf, getStrAttr, hsz]
      rfl
    simp only [processTensor, getStrAttr, hty, hbtyEq, h4]

/-- A buffer `Tensor` element whose `size` has two comma-separated
components. -/
def bufTensorA : XmlNode :=
  XmlNode.mk "Tensor"
    [("type", "input_buffer"), ("size", "W*H,dummy"), ("dim", "input,0"),
     ("arg-name", "buf"), ("port-index", "0")] []

theorem C10_witness :
    ({ type := CustomParamType.InputBuffer, format := CustomDataFormat.BFYX,
       argName := "buf", portIndex := 0, bufferSizeRule := "W*H",
       dimSource := CustomDimSource.Input, dimIdx := 0 } : KernelParam).bufferSizeRule =
      String.mk ("W*H,dummy".toList.takeWhile (fun c => c ≠ ',')) :=
  C10_bufferSizeRule.1 bufTensorA
    { type := CustomParamType.InputBuffer, format := CustomDataFormat.BFYX,
      argName := "buf", portIndex := 0, bufferSizeRule := "W*H",
      dimSource := CustomDimSource.Input, dimIdx := 0 }
    "W*H,dummy" (by decide) (by decide) (Or.inl rfl)

theorem parseDataType_ok {typeStr : String} {ty : CustomParamType}
    (h : parseDataType typeStr = Except.ok ty) :
    ty = CustomParamType.Data ∨ ty = CustomParamType.LocalData := by
  simp only [parseDataType] at h
  split at h
  · simp only [Except.ok.injEq] at h
    exact Or.inl h.symm
  · split at h
    · simp only [Except.ok.injEq] at h
      exact Or.inr h.symm
    · exact absurd h (by simp)

theorem processData_ok_inv {e : XmlNode} {p : KernelParam}
    (h : processData e = Except.ok p) :
    ∃ typeStr ty argName,
      getStrAttr e "type" = Except.ok typeStr ∧
      parseDataType typeStr = Except.ok ty ∧
      getStrAttr e "arg-name" = Except.ok argName ∧
      ¬(getStrAttrD e "source" "" = "" ∧ getStrAttrD e "dim" "" = "") ∧
      ¬(getStrAttrD e "source" "" ≠ "" ∧ getStrAttrD e "dim" "" ≠ "") ∧
      p.type = ty ∧ p.argName = argName ∧
      p.irSource = getStrAttrD e "source" "" ∧
      ((ty = CustomParamType.LocalData ∧ getStrAttrD e "dim" "" ≠ "" ∧
          parseDimSource (getStrAttrD e "dim" "") = Except.ok (p.dimSource, p.dimIdx) ∧
          p.bufferSizeRule = getStrAttrD e "size" "") ∨
        (ty = CustomParamType.LocalData ∧ getStrAttrD e "dim" "" = "" ∧
          p.dimSource = CustomDimSource.Input ∧ p.dimIdx = -1 ∧
          p.bufferSizeRule = getStrAttrD e "size" "") ∨
        (ty = CustomParamType.Data ∧ p.dimSource = CustomDimSource.Input ∧
          p.dimIdx = -1 ∧ p.bufferSizeRule = "")) := by
  simp only [processData] at h
  split at h
  · exact absurd h (by simp)
  next typeStr hts =>
    split at h
    · exact absurd h (by simp)
    next ty hty =>
      split at h
      · exact absurd h (by simp)
      next argName han =>
        split at h
        · exact absurd h (by simp)
        next hni =>
          split at h
          · exact absurd h (by simp)
          next hnb =>
            split at h
            next hLD =>
              split at h
              next hdim =>
                split at h
                · exact absurd h (by simp)
                next ds di hpds =>
                  simp only [Except.ok.injEq] at h
                  subst h
                  exact ⟨typeStr, ty, argName, hts, hty, han, hni, hnb,
                    rfl, rfl, rfl, Or.inl ⟨hLD, hdim, hpds, rfl⟩⟩
              next hdim =>
                simp only [Except.ok.injEq] at h
                subst h
                exact ⟨typeStr, ty, argName, hts, hty, han, hni, hnb,
                  rfl, rfl, rfl, Or.inr (Or.inl ⟨hLD, not_not.mp hdim, rfl, rfl, rfl⟩)⟩
            next hLD =>
              simp only [Except.ok.injEq] at h
              subst h
              have hd : ty = CustomParamType.Data := by
                rcases parseDataType_ok hty with h1 | h1
                · exact h1
                · exact absurd h1 hLD
              exact ⟨typeStr, ty, argName, hts, hty, han, hni, hnb,
                rfl, rfl, rfl, Or.inr (Or.inr ⟨hd, rfl, rfl, rfl⟩)⟩

/-- A `Data` element of kind `data` carrying only a `dim` attribute. -/
def c1Data : XmlNode :=
  XmlNode.mk "Data" [("type", "data"), ("arg-name", "x"), ("dim", "input,2")] []

/-- A descriptor node whose `Parameters` block holds only `c1Data`. -/
def c1Node : XmlNode :=
  XmlNode.mk "CustomLayer" [] [XmlNode.mk "Parameters" [] [c1Data]]

/-- C1, counterexample: a `Data` element of kind `data` with only `dim`
set parses successfully, yet the produced parameter's dimension index is
the struct default `-1`, not the `2` that `parseDimSource` would extract
from the `dim` string — the (dimensionSource, dimensionIndex) pair is
never populated for kind `Data` (only for `LocalData`), refuting "the
corresponding field is actually populated". -/
theorem C1_counterexample :
    processParametersNode c1Node =
      Except.ok [{ type := CustomParamType.Data, argName := "x" }] ∧
    parseDimSource "input,2" = Except.ok (CustomDimSource.Input, 2) ∧
    ({ type := CustomParamType.Data, argName := "x" } : KernelParam).dimIdx = -1 ∧
    (-1 : Int) ≠ 2 := by decide

/-- C1, amended: a `Data` element with both `source` and `dim` non-empty
fails `InvalidDescriptor`, with neither fails `InvalidDescriptor`; on
success exactly one of the two is non-empty, `irSource` always holds the
`source` attribute's value, and the `dim` string is parsed into
(`dimensionSource`, `dimensionIndex`) only when the kind is `LocalData`;
a kind-`Data` parameter keeps the default `dimensionIndex = -1` even
when `dim` was the attribute given.  Every `Data` child of a
successfully parsed `Parameters` block yields such a parameter in the
result list. -/
theorem C1_data_source_dim_amended :
    (∀ e t an, e.attrs.lookup "type" = some t →
      (ciEq t "data" = true ∨ ciEq t "local_data" = true) →
      e.attrs.lookup "arg-name" = some an →
      getStrAttrD e "source" "" = "" → getStrAttrD e "dim" "" = "" →
      processData e =
        Except.error (.invalidDescriptor "Data node has no source or dim")) ∧
    (∀ e t an, e.attrs.lookup "type" = some t →
      (ciEq t "data" = true ∨ ciEq t "local_data" = true) →
      e.attrs.lookup "arg-name" = some an →
      getStrAttrD e "source" "" ≠ "" → getStrAttrD e "dim" "" ≠ "" →
      processData e =
        Except.error (.invalidDescriptor "Data node can only have source or dim")) ∧
    (∀ e p, processData e = Except.ok p →
      p.irSource = getStrAttrD e "source" "" ∧
      ¬(getStrAttrD e "source" "" = "" ∧ getStrAttrD e "dim" "" = "") ∧
      ¬(getStrAttrD e "source" "" ≠ "" ∧ getStrAttrD e "dim" "" ≠ "")) ∧
    (∀ e p, processData e = Except.ok p → p.type = CustomParamType.LocalData →
      getStrAttrD e "dim" "" ≠ "" →
      parseDimSource (getStrAttrD e "dim" "") = Except.ok (p.dimSource, p.dimIdx)) ∧
    (∀ e p, processData e = Except.ok p → p.type = CustomParamType.Data →
      p.dimIdx = -1) ∧
    (∀ node ps, processParametersNode node = Except.ok ps →
      ∀ e ∈ paramChildren node "Data", ∃ p ∈ ps, processData e = Except.ok p) := by
  have hDT : ∀ t : String, (ciEq t "data" = true ∨ ciEq t "local_data" = true) →
      ∃ ty, parseDataType t = Except.ok ty := by
    intro t ht
    rcases ht with h1 | h1
    · exact ⟨CustomParamType.Data, by simp [parseDataType, h1]⟩
    · have h2 : ciEq t "data" = false := ciEq_trans_ne h1 (by decide)
      exact ⟨CustomParamType.LocalData, by simp [parseDataType, h2, h1]⟩
  refine ⟨?_, ?_, ?_, ?_, ?_, ?_⟩
  · intro e t an hty htok han hsrc hdim
    obtain ⟨ty, hPD⟩ := hDT t htok
    simp only [processData, getStrAttr, hty, han, hPD]
    rw [if_pos ⟨hsrc, hdim⟩]
  · intro e t an hty htok han hsrc hdim
    obtain ⟨ty, hPD⟩ := hDT t htok
    simp only [processData, getStrAttr, hty, han, hPD]
    rw [if_neg (fun hand => hsrc hand.1), if_pos ⟨hsrc, hdim⟩]
  · intro e p h
    obtain ⟨_, _, _, _, _, _, hni, hnb, _, _, hir, _⟩ := processData_ok_inv h
    exact ⟨hir, hni, hnb⟩
  · intro e p h hpt hdim
    obtain ⟨_, ty, _, _, _, _, _, _, hty2, _, _, hcase⟩ := processData_ok_inv h
    rcases hcase with ⟨_, _, hps, _⟩ | ⟨_, hdm, _, _, _⟩ | ⟨hd, _, _, _⟩
    · exact hps
    · exact absurd hdm hdim
    · rw [hpt] at hty2
      rw [hd] at hty2
      exact absurd hty2 (by decide)
  · intro e p h hpt
    obtain ⟨_, ty, _, _, _, _, _, _, hty2, _, _, hcase⟩ := processData_ok_inv h
    rcases hcase with ⟨hl, _, _, _⟩ | ⟨hl, _, _, hdi, _⟩ | ⟨_, _, hdi, _⟩
    · rw [hpt] at hty2
      rw [hl] at hty2
      exact absurd hty2 (by decide)
    · exact hdi
    · exact hdi
  · intro node ps h e he
    obtain ⟨ts, ds, ss, _, hds, _, rfl⟩ := processParams_decompose h
    obtain ⟨b, hb, hfb⟩ := mapE_ok_mem hds e he
    refine ⟨b, ?_, hfb⟩
    simp only [List.mem_append]
    exact Or.inl (Or.inr hb)

/-- A `LocalData` element with `size` and `dim`. -/
def c1LocalData : XmlNode :=
  XmlNode.mk "Data"
    [("type", "local_data"), ("arg-name", "buf"), ("size", "64"),
     ("dim", "input,2")] []

theorem C1_witness :
    parseDimSource (getStrAttrD c1LocalData "dim" "") =
      Except.ok
        (({ type := CustomParamType.LocalData, argName := "buf",
            bufferSizeRule := "64", dimSource := CustomDimSource.Input,
            dimIdx := 2 } : KernelParam).dimSource,
         ({ type := CustomParamType.LocalData, argName := "buf",
            bufferSizeRule := "64", dimSource := CustomDimSource.Input,
            dimIdx := 2 } : KernelParam).dimIdx) :=
  C1_data_source_dim_amended.2.2.2.1 c1LocalData
    { type := CustomParamType.LocalData, argName := "buf",
      bufferSizeRule := "64", dimSource := CustomDimSource.Input, dimIdx := 2 }
    (by decide) (by decide) (by decide)

/-- C7: for a successfully parsed `Parameters` block the parameter list
has one entry per `Tensor`/`Data`/`Scalar` child, ordered as all Tensor
parameters first, then all Data parameters, then all Scalar parameters,
document order preserved within each group (the i-th child of each group
maps to the corresponding position of the result); and an unrecognized
`type` token on any of the three element kinds fails
`InvalidDescriptor`. -/
theorem C7_parameter_order :
    (∀ node ps, processParametersNode node = Except.ok ps →
      ps.length = (paramChildren node "Tensor").length +
        (paramChildren node "Data").length +
        (paramChildren node "Scalar").length ∧
      (∀ i e, (paramChildren node "Tensor").get? i = some e →
        ∃ p, ps.get? i = some p ∧ processTensor e = Except.ok p) ∧
      (∀ i e, (paramChildren node "Data").get? i = some e →
        ∃ p, ps.get? ((paramChildren node "Tensor").length + i) = some p ∧
          processData e = Except.ok p) ∧
      (∀ i e, (paramChildren node "Scalar").get? i = some e →
        ∃ p, ps.get? ((paramChildren node "Tensor").length +
            (paramChildren node "Data").length + i) = some p ∧
          processScalar e = Except.ok p)) ∧
    (∀ e t, e.attrs.lookup "type" = some t →
      ciEq t "input" = false → ciEq t "output" = false →
      ciEq t "input_buffer" = false → ciEq t "output_buffer" = false →
      ciEq t "data" = false →
      processTensor e =
        Except.error (.invalidDescriptor ("Tensor node has an invalid type " ++ t))) ∧
    (∀ e t, e.attrs.lookup "type" = some t →
      ciEq t "data" = false → ciEq t "local_data" = false →
      processData e =
        Except.error (.invalidDescriptor ("Data node has an invalid type " ++ t))) ∧
    (∀ e t, e.attrs.lookup "type" = some t →
      ciEq t "int" = false → ciEq t "float" = false →
      processScalar e =
        Except.error (.invalidDescriptor ("Scalar node has an invalid type " ++ t))) := by
  refine ⟨?_, ?_, ?_, ?_⟩
  · intro node ps h
    obtain ⟨ts, ds, ss, hts, hds, hss, rfl⟩ := processParams_decompose h
    obtain ⟨hlt, hpt⟩ := mapE_ok_pointwise hts
    obtain ⟨hld, hpd⟩ := mapE_ok_pointwise hds
    obtain ⟨hls, hps⟩ := mapE_ok_pointwise hss
    refine ⟨by simp [hlt, hld, hls, Nat.add_assoc], ?_, ?_, ?_⟩
    · intro i e he
      obtain ⟨b, hb, hfb⟩ := hpt i e he
      have hi : i < ts.length := by
        rw [hlt]
        exact (List.get?_eq_some.mp he).1
      refine ⟨b, ?_, hfb⟩
      rw [List.append_assoc, List.get?_append hi]
      exact hb
    · intro i e he
      obtain ⟨b, hb, hfb⟩ := hpd i e he
      have hi : i < ds.length := by
        rw [hld]
        exact (List.get?_eq_some.mp he).1
      refine ⟨b, ?_, hfb⟩
      rw [List.append_assoc, ← hlt,
        List.get?_append_right (Nat.le_add_right ts.length i)]
      have harith : ts.length + i - ts.length = i := by omega
      rw [harith, List.get?_append hi]
      exact hb
    · intro i e he
      obtain ⟨b, hb, hfb⟩ := hps i e he
      have hi : i < ss.length := by
        rw [hls]
        exact (List.get?_eq_some.mp he).1
      refine ⟨b, ?_, hfb⟩
      rw [List.append_assoc, ← hlt, ← hld]
      have harith : ts.length + ds.length + i =
          ts.length + (ds.length + i) := by omega
      rw [harith, List.get?_append_right (Nat.le_add_right ts.length _)]
      have harith2 : ts.length + (ds.length + i) - ts.length =
          ds.length + i := by omega
      rw [harith2, List.get?_append_right (Nat.le_add_right ds.length i)]
      have harith3 : ds.length + i - ds.length = i := by omega
      rw [harith3]
      exact hb
  · intro e t hlk h1 h2 h3 h4 h5
    have hPT : parseTensorType t =
        Except.error (.invalidDescriptor ("Tensor node has an invalid type " ++ t)) := by
      simp [parseTensorType, h1, h2, h3, h4, h5]
    simp only [processTensor, getStrAttr, hlk, hPT]
  · intro e t hlk h1 h2
    have hPT : parseDataType t =
        Except.error (.invalidDescriptor ("Data node has an invalid type " ++ t)) := by
      simp [parseDataType, h1, h2]
    simp only [processData, getStrAttr, hlk, hPT]
  · intro e t hlk h1 h2
    have hPT : parseScalarType t =
        Except.error (.invalidDescriptor ("Scalar node has an invalid type " ++ t)) := by
      simp [parseScalarType, h1, h2]
    simp only [processScalar, getStrAttr, hlk, hPT]

/-- A `Parameters` block with one child of each element kind. -/
def c7Node : XmlNode :=
  XmlNode.mk "CustomLayer" []
    [XmlNode.mk "Parameters" []
      [XmlNode.mk "Scalar" [("type", "int"), ("arg-name", "S"), ("port-index", "1")] [],
       XmlNode.mk "Tensor" [("type", "input"), ("arg-name", "A"), ("port-index", "0")] [],
       XmlNode.mk "Data" [("type", "data"), ("arg-name", "D"), ("source", "blob")] []]]

/-- The parameter list `c7Node` parses to: Tensor group first, then Data,
then Scalar, regardless of the interleaved document order of the three
groups. -/
def c7Params : List KernelParam :=
  [{ type := CustomParamType.Input, format := CustomDataFormat.BFYX,
     argName := "A", portIndex := 0 },
   { type := CustomParamType.Data, argName := "D", irSource := "blob" },
   { type := CustomParamType.Int, argName := "S", portIndex := 1 }]

theorem C7_witness :
    c7Params.length = (paramChildren c7Node "Tensor").length +
      (paramChildren c7Node "Data").length +
      (paramChildren c7Node "Scalar").length :=
  (C7_parameter_order.1 c7Node c7Params (by decide)).1

/-- C9: in both constructed variants, `inputDataCount` is the number of
parsed parameters of kind Input, InputBuffer, or Data, and no other kind
is counted. -/
theorem C9_inputDataCount :
    (∀ node dir fs k, buildCppKernel node dir fs = Except.ok k →
      k.inputDataCount =
        (k.kernelParams.filter (fun p => isInputData p)).length) ∧
    (∀ node dir fs locate k, buildClKernel node dir fs locate = Except.ok k →
      k.inputDataCount =
        (k.kernelParams.filter (fun p => isInputData p)).length) ∧
    (∀ p : KernelParam, isInputData p = true ↔
      (p.type = CustomParamType.Input ∨ p.type = CustomParamType.InputBuffer ∨
        p.type = CustomParamType.Data)) := by
  refine ⟨?_, ?_, ?_⟩
  · intro node dir fs k h
    simp only [buildCppKernel, exceptBind_ok] at h
    obtain ⟨ms, hms, bin, hbin, params, hparams, wg, hwg, hok⟩ := h
    rcases wg with ⟨wgDs, wgDi⟩
    simp only [Except.ok.injEq] at hok
    subst hok
    simp [List.countP_eq_length_filter]
  · intro node dir fs locate k h
    simp only [buildClKernel, exceptBind_ok] at h
    obtain ⟨ms, hms, bin, hbin, params, hparams, w3, hw3, entry, hentry,
      parser, hparser, rk, hrk, hok⟩ := h
    rcases w3 with ⟨⟨wgDs, wgDi⟩, ggs, lgs⟩
    rcases rk with ⟨kid, names⟩
    simp only [Except.ok.injEq] at hok
    subst hok
    simp [List.countP_eq_length_filter]
  · intro p
    rcases p with ⟨ty, fmt, an, pi, ir, bsr, ds, di⟩
    cases ty <;> simp [isInputData]

/-- A well-formed Compiled-variant descriptor node (also valid for the
Native variant, which ignores `entry`/`global`/`local`). -/
def cppNodeA : XmlNode :=
  XmlNode.mk "CustomLayer" [("entry", "sample")]
    [XmlNode.mk "Source" [("filename", "kernel.bin")] [],
     XmlNode.mk "Parameters" []
       [XmlNode.mk "Tensor" [("type", "input"), ("arg-name", "A"), ("port-index", "0")] [],
        XmlNode.mk "Tensor" [("type", "output"), ("arg-name", "B"), ("port-index", "0")] []],
     XmlNode.mk "WorkSizes"
       [("dim", "input,0"), ("global", "B,H,W"), ("local", "1,1,1")] []]

/-- Section location / metadata construction fixture: every binary
resolves to `sampleParser`. -/
def locateA : String → Except KernelError MdParser :=
  fun _ => Except.ok sampleParser

def cppParamsA : List KernelParam :=
  [{ type := CustomParamType.Input, format := CustomDataFormat.BFYX,
     argName := "A", portIndex := 0 },
   { type := CustomParamType.Output, format := CustomDataFormat.BFYX,
     argName := "B", portIndex := 0 }]

def cppKernelA : CustomCppKernel :=
  { kernelBinary := "BINARY", kernelParams := cppParamsA,
    parameters := ["A", "B"], wgDimSource := CustomDimSource.Input,
    wgDimIdx := 0, maxShaves := 0, inputDataCount := 1 }

def clKernelA : CustomClKernel :=
  { kernelBinary := "BINARY", kernelParams := cppParamsA,
    parameters := ["A", "B"], wgDimSource := CustomDimSource.Input,
    wgDimIdx := 0, maxShaves := 0, inputDataCount := 1,
    globalGridSizeRules := ["B", "H", "W"],
    localGridSizeRules := ["1", "1", "1"], kernelId := 0 }

theorem C9_witness :
    cppKernelA.inputDataCount =
      (cppKernelA.kernelParams.filter (fun p => isInputData p)).length ∧
    clKernelA.inputDataCount =
      (clKernelA.kernelParams.filter (fun p => isInputData p)).length :=
  ⟨C9_inputDataCount.1 cppNodeA "cfg" fsA cppKernelA (by decide),
   C9_inputDataCount.2.1 cppNodeA "cfg" fsA locateA clKernelA (by decide)⟩
